import Mathlib

/-!
Verification of the figma-to-html-css converter core
(`FigmaConverterService` in `figma-converter.service.ts`, together with the
domain node model in `figma.types.ts`).

Embedding conventions:

* JavaScript numbers are modelled exactly as fractions `JsNum` (an integer
  numerator over a positive natural denominator, not kept in lowest terms);
  all observations of a `JsNum` (rounding, printing, sign tests) are
  value-based, so the representation is invisible.  The sole irrational
  computation of the source — `Math.atan2` for the linear-gradient angle —
  is modelled over the real numbers (`jsAtan2`, `gradientCssAngle`), and the
  platform's float-to-string formatting of that angle is abstracted as a
  parameter `numFmt : ℝ → String` threaded through the pipeline: no claim
  constrains the textual rendering of the angle, only its value.
* Optional JS fields are `Option`s.  JS truthiness is modelled field by
  field where the source relies on it (`0`, `""`, `undefined`, `null` and
  `false` are falsy; `[]` and every object are truthy).
* An absent `children` field and an empty children array are observationally
  identical in every use the source makes of `children` (both produce the
  empty child list / empty fragment), so `children` is modelled as a plain
  (mutual-inductive) list, with `nil` standing for both.
* Strings are built exactly as the source template literals build them;
  literal braces appear as the escapes `\x7b` / `\x7d` and apostrophes as
  `\x27`.
-/

set_option maxRecDepth 1000000

/-- Exact fraction model of a JavaScript number: `num / den` with `den`
intended positive; not normalized (all observations are value-based). -/
structure JsNum where
  num : Int
  den : Nat
  deriving DecidableEq

instance jsNumOfNat (n : Nat) : OfNat JsNum n := ⟨⟨Int.ofNat n, 1⟩⟩

def JsNum.mul (a b : JsNum) : JsNum := ⟨a.num * b.num, a.den * b.den⟩

def JsNum.sub (a b : JsNum) : JsNum := ⟨a.num * Int.ofNat b.den - b.num * Int.ofNat a.den, a.den * b.den⟩

instance : Mul JsNum := ⟨JsNum.mul⟩

instance : Sub JsNum := ⟨JsNum.sub⟩

/-- Value of a `JsNum` as a real number (used only for the gradient angle). -/
noncomputable def JsNum.toReal (q : JsNum) : ℝ := (q.num : ℝ) / (q.den : ℝ)

/-- `true` iff the number's value is `0` (JS falsiness of a number). -/
def JsNum.isZero (q : JsNum) : Bool := q.num = 0

/-- `true` iff the number's value is negative. -/
def JsNum.isNeg (q : JsNum) : Bool := q.num < 0

/-- `Math.round`: round half-up, i.e. `⌊q + 1/2⌋`. -/
def jsRound (q : JsNum) : Int := Int.fdiv (2 * q.num + Int.ofNat q.den) (Int.ofNat (2 * q.den))

/-- Decimal digits of the proper fraction `rem / den`, by long division,
stopping when the remainder vanishes (at most `fuel` digits). -/
def decDigits : Nat → Nat → Nat → List Char
  | 0, _, _ => []
  | _ + 1, 0, _ => []
  | fuel + 1, rem, den =>
      Char.ofNat (48 + (rem * 10) / den) :: decDigits fuel ((rem * 10) % den) den

/-- Decimal rendering of a `JsNum`, modelling JS number-to-string
interpolation for the (terminating-decimal) values the converter prints. -/
def jsNumToString (q : JsNum) : String :=
  let sign := if q.isNeg then ("-") else ("")
  let n := q.num.natAbs
  let ip := n / q.den
  let rem := n % q.den
  sign ++ Nat.repr ip ++ (if rem = 0 then ("") else ("." ++ String.mk (decDigits 20 rem q.den)))

namespace Figma

/-- `Vector` of `figma.types.ts`. -/
structure Vector where
  x : JsNum
  y : JsNum
  deriving DecidableEq

/-- `Color` of `figma.types.ts`; the alpha channel is sometimes absent at
runtime (the source checks `color.a !== undefined`). -/
structure Color where
  r : JsNum
  g : JsNum
  b : JsNum
  a : Option JsNum
  deriving DecidableEq

/-- `ColorStop` of `figma.types.ts`; `color` may be a null-ish value at
runtime (the source's `rgba` defends against it). -/
structure ColorStop where
  position : JsNum
  color : Option Color
  deriving DecidableEq

inductive PaintType where
  | SOLID | GRADIENT_LINEAR | GRADIENT_RADIAL | IMAGE
  deriving DecidableEq

/-- `Paint` of `figma.types.ts`. -/
structure Paint where
  type : PaintType
  color : Option Color
  opacity : Option JsNum
  visible : Option Bool
  gradientHandlePositions : Option (List Vector)
  gradientStops : Option (List ColorStop)
  imageRef : Option String
  deriving DecidableEq

inductive EffectType where
  | INNER_SHADOW | DROP_SHADOW | LAYER_BLUR | BACKGROUND_BLUR
  deriving DecidableEq

/-- `Effect` of `figma.types.ts`; `visible` and `radius` are declared
required there but the converter tests them truthily, so they are optional
here. -/
structure Effect where
  type : EffectType
  visible : Option Bool
  radius : Option JsNum
  color : Option Color
  offset : Option Vector
  spread : Option JsNum
  deriving DecidableEq

inductive TextAlignH where
  | LEFT | RIGHT | CENTER | JUSTIFIED
  deriving DecidableEq

inductive TextAlignV where
  | TOP | CENTER | BOTTOM
  deriving DecidableEq

/-- `TypeStyle` of `figma.types.ts`; alignment, spacing and line-height are
tested truthily by the converter, so they are optional here. -/
structure TypeStyle where
  fontFamily : String
  fontWeight : JsNum
  fontSize : JsNum
  textAlignHorizontal : Option TextAlignH
  textAlignVertical : Option TextAlignV
  letterSpacing : Option JsNum
  lineHeightPx : Option JsNum
  deriving DecidableEq

/-- Node `type` tags.  `SECTION` is absent from the declared TS union but is
tested by `findAllArtboards`, so the runtime value is representable. -/
inductive NodeType where
  | DOCUMENT | CANVAS | FRAME | GROUP | VECTOR | BOOLEAN_OPERATION | STAR
  | LINE | ELLIPSE | REGULAR_POLYGON | RECTANGLE | TEXT | SLICE | COMPONENT
  | INSTANCE | COMPONENT_SET | SECTION
  deriving DecidableEq

inductive LayoutMode where
  | NONE | HORIZONTAL | VERTICAL
  deriving DecidableEq

/-- `absoluteBoundingBox` of `figma.types.ts`. -/
structure BoundingBox where
  x : JsNum
  y : JsNum
  width : JsNum
  height : JsNum
  deriving DecidableEq

/-- The non-recursive fields of `FigmaNode` (`figma.types.ts`), plus the
dynamically-read fields `layoutPositioning`, `counterAxisAlignItems` and
`primaryAxisAlignItems` the converter accesses (kept as raw strings, as the
source compares them to string literals). -/
structure NodeProps where
  id : String
  name : String
  type : NodeType
  absoluteBoundingBox : Option BoundingBox
  fills : Option (List Paint)
  strokes : Option (List Paint)
  strokeWeight : Option JsNum
  effects : Option (List Effect)
  characters : Option String
  style : Option TypeStyle
  layoutMode : Option LayoutMode
  layoutPositioning : Option String
  paddingLeft : Option JsNum
  paddingRight : Option JsNum
  paddingTop : Option JsNum
  paddingBottom : Option JsNum
  itemSpacing : Option JsNum
  backgroundColor : Option Color
  opacity : Option JsNum
  visible : Option Bool
  cornerRadius : Option JsNum
  rectangleCornerRadii : Option (List JsNum)
  counterAxisAlignItems : Option String
  primaryAxisAlignItems : Option String

mutual
inductive FigmaNode where
  | mk (props : NodeProps) (children : FigmaNodeList)
inductive FigmaNodeList where
  | nil
  | cons (head : FigmaNode) (tail : FigmaNodeList)
end

def FigmaNode.props : FigmaNode → NodeProps
  | .mk p _ => p

def FigmaNode.children : FigmaNode → FigmaNodeList
  | .mk _ c => c

def FigmaNode.id (n : FigmaNode) : String := n.props.id

def FigmaNode.type (n : FigmaNode) : NodeType := n.props.type

def FigmaNode.absoluteBoundingBox (n : FigmaNode) : Option BoundingBox := n.props.absoluteBoundingBox

def FigmaNode.fills (n : FigmaNode) : Option (List Paint) := n.props.fills

def FigmaNode.strokes (n : FigmaNode) : Option (List Paint) := n.props.strokes

def FigmaNode.strokeWeight (n : FigmaNode) : Option JsNum := n.props.strokeWeight

def FigmaNode.effects (n : FigmaNode) : Option (List Effect) := n.props.effects

def FigmaNode.characters (n : FigmaNode) : Option String := n.props.characters

def FigmaNode.style (n : FigmaNode) : Option TypeStyle := n.props.style

def FigmaNode.layoutMode (n : FigmaNode) : Option LayoutMode := n.props.layoutMode

def FigmaNode.layoutPositioning (n : FigmaNode) : Option String := n.props.layoutPositioning

def FigmaNode.itemSpacing (n : FigmaNode) : Option JsNum := n.props.itemSpacing

def FigmaNode.backgroundColor (n : FigmaNode) : Option Color := n.props.backgroundColor

def FigmaNode.visible (n : FigmaNode) : Option Bool := n.props.visible

def FigmaNode.cornerRadius (n : FigmaNode) : Option JsNum := n.props.cornerRadius

def FigmaNode.rectangleCornerRadii (n : FigmaNode) : Option (List JsNum) := n.props.rectangleCornerRadii

def FigmaNodeList.toList : FigmaNodeList → List FigmaNode
  | .nil => []
  | .cons h t => h :: t.toList

def FigmaNodeList.isNil : FigmaNodeList → Bool
  | .nil => true
  | .cons _ _ => false

end Figma

namespace Figma

def FigmaNode.paddingLeft (n : FigmaNode) : Option JsNum := n.props.paddingLeft

def FigmaNode.paddingRight (n : FigmaNode) : Option JsNum := n.props.paddingRight

def FigmaNode.paddingTop (n : FigmaNode) : Option JsNum := n.props.paddingTop

def FigmaNode.paddingBottom (n : FigmaNode) : Option JsNum := n.props.paddingBottom

def FigmaNode.counterAxisAlignItems (n : FigmaNode) : Option String := n.props.counterAxisAlignItems

def FigmaNode.primaryAxisAlignItems (n : FigmaNode) : Option String := n.props.primaryAxisAlignItems

end Figma

namespace FigmaConverterService

open Figma

/-- JS truthiness of an optional string (absent and `""` are falsy). -/
def truthyStr (s : Option String) : Bool :=
  match s with
  | none => false
  | some s => !(s == "")

/-- JS truthiness of an optional number (absent and `0` are falsy). -/
def truthyNum (q : Option JsNum) : Bool :=
  match q with
  | none => false
  | some q => !q.isZero

/-- Allowed identifier characters of the sanitizer regex `[a-zA-Z0-9-_]`. -/
def isIdentChar (c : Char) : Bool :=
  decide (('a' ≤ c ∧ c ≤ 'z') ∨ ('A' ≤ c ∧ c ≤ 'Z') ∨ ('0' ≤ c ∧ c ≤ '9') ∨ c = '-' ∨ c = '_')

/-- One character of the sanitizer: kept when allowed, `-` otherwise. -/
def sanitizeChar (c : Char) : Char := if isIdentChar c then c else ('-')

/-- `node.id.replace(/[^a-zA-Z0-9-_]/g, '-')` (processNode). -/
def sanitizeId (s : String) : String :=
  String.mk (s.data.map sanitizeChar)

/-- `String.prototype.replace` with a global single-character pattern:
every occurrence of `pat` expands to `rep` (replacements are not
re-scanned, matching JS left-to-right replacement). -/
def replaceChar (pat : Char) (rep : String) : List Char → List Char
  | [] => []
  | c :: rest =>
      if c = pat then rep.data ++ replaceChar pat rep rest
      else c :: replaceChar pat rep rest

/-- The text-escaping chain of `processNode`: `&` → `&amp;` first, then
`<` → `&lt;`, `>` → `&gt;`, then newline → `<br/>`. -/
def escapeCharacters (s : String) : String :=
  String.mk (replaceChar ('\n') ("<br/>")
    (replaceChar ('>') ("&gt;")
      (replaceChar ('<') ("&lt;")
        (replaceChar ('&') ("&amp;") s.data))))

/-- `rgba` of the source: null color gives `transparent`; channels are
`Math.round(channel * 255)`; alpha is the override when passed, else the
color's own `a` when defined, else `1`. -/
def rgba (color : Option Color) (opacityOverride : Option JsNum) : String :=
  match color with
  | none => "transparent"
  | some c =>
      let r := jsRound (c.r * 255)
      let g := jsRound (c.g * 255)
      let b := jsRound (c.b * 255)
      let a : JsNum :=
        match opacityOverride with
        | some o => o
        | none => match c.a with
          | some a => a
          | none => 1
      "rgba(" ++ r.repr ++ ", " ++ g.repr ++ ", " ++ b.repr ++ ", " ++ jsNumToString a ++ ")"

/-- `mapFigmaAlignToCSS`: absent/empty gives `undefined`; otherwise the
fixed table with `flex-start` for unknown keys. -/
def mapFigmaAlignToCSS (alignment : Option String) : Option String :=
  match alignment with
  | none => none
  | some s =>
      if s = "" then none
      else some (
        if s = "MIN" then ("flex-start")
        else if s = "MAX" then ("flex-end")
        else if s = "CENTER" then ("center")
        else if s = "BASELINE" then ("baseline")
        else if s = "STRETCH" then ("stretch")
        else if s = "SPACE_BETWEEN" then ("space-between")
        else ("flex-start"))

/-- `layoutMode && layoutMode !== 'NONE'`. -/
def isAutoLayout (m : Option LayoutMode) : Bool :=
  match m with
  | some LayoutMode.HORIZONTAL => true
  | some LayoutMode.VERTICAL => true
  | _ => false

/-- The fill/stroke visibility filter `p.visible !== false`. -/
def paintVisible (p : Paint) : Bool := !(p.visible == some false)

/-- `Math.atan2` on real values (sign conventions of IEEE atan2; the
zero-zero corner returns 0, and infinities/NaN are out of scope). -/
noncomputable def jsAtan2 (y x : ℝ) : ℝ :=
  if 0 < x then Real.arctan (y / x)
  else if x < 0 then
    (if 0 ≤ y then Real.arctan (y / x) + Real.pi else Real.arctan (y / x) - Real.pi)
  else if 0 < y then Real.pi / 2
  else if y < 0 then -(Real.pi / 2)
  else 0

/-- The gradient angle computation of `parseGradient`:
`atan2(dy, dx)` in degrees plus the fixed 90° CSS offset. -/
noncomputable def gradientCssAngle (start e : Vector) : ℝ :=
  let dy : ℝ := e.y.toReal - start.y.toReal
  let dx : ℝ := e.x.toReal - start.x.toReal
  jsAtan2 dy dx * 180 / Real.pi + 90

/-- One gradient stop: `color position%`, position rounded to the nearest
integer percentage. -/
def gradientStopCss (stop : ColorStop) : String :=
  rgba stop.color none ++ " " ++ (jsRound (stop.position * 100)).repr ++ "%"

/-- `parseGradient`.  The platform's float formatting of the angle is the
parameter `numFmt`; the angle value is `gradientCssAngle`.  With fewer than
two handle vectors the source dereferences an absent handle (a runtime
TypeError); no claim concerns that case and it is modelled as the empty
declaration. -/
noncomputable def parseGradient (numFmt : ℝ → String) (paint : Paint) : String :=
  match paint.gradientStops, paint.gradientHandlePositions with
  | some stops, some (start :: e :: _) =>
      "linear-gradient(" ++ numFmt (gradientCssAngle start e) ++ "deg, "
        ++ String.intercalate (", ") (stops.map gradientStopCss) ++ ")"
  | some _, some _ => ""
  | _, _ => ""

/-- `parseFills`: filter to visible fills, select the last (top-most)
entry, dispatch on its variant. -/
noncomputable def parseFills (numFmt : ℝ → String) (fills : List Paint) : String :=
  let validFills := fills.filter paintVisible
  match validFills.getLast? with
  | none => ""
  | some fill =>
      match fill.type with
      | PaintType.SOLID => rgba fill.color fill.opacity
      | PaintType.GRADIENT_LINEAR => parseGradient numFmt fill
      | PaintType.IMAGE => "linear-gradient(135deg, #f5f5f5 0%, #e0e0e0 100%)"
      | PaintType.GRADIENT_RADIAL => ""

/-- `parseEffects`: visible shadow-type effects rendered
`[inset] x y blur spread color`, comma-joined. -/
def parseEffects (effects : List Effect) : String :=
  String.intercalate (", ")
    ((effects.filter (fun e =>
        (e.visible == some true) && ((e.type == EffectType.DROP_SHADOW) || (e.type == EffectType.INNER_SHADOW)))).map
      (fun e =>
        let inset := if e.type == EffectType.INNER_SHADOW then ("inset") else ("")
        let x := (e.offset.map Vector.x).getD 0
        let y := (e.offset.map Vector.y).getD 0
        let blur := e.radius.getD 0
        let spread := e.spread.getD 0
        inset ++ " " ++ jsNumToString x ++ "px " ++ jsNumToString y ++ "px "
          ++ jsNumToString blur ++ "px " ++ jsNumToString spread ++ "px " ++ rgba e.color none))

/-- `parseTypography`. -/
def parseTypography (style : TypeStyle) : List String :=
  ["font-family: \x27" ++ style.fontFamily ++ "\x27, sans-serif;",
   "font-size: " ++ jsNumToString style.fontSize ++ "px;",
   "font-weight: " ++ jsNumToString style.fontWeight ++ ";"]
  ++ (if truthyNum style.lineHeightPx then
        ["line-height: " ++ jsNumToString (style.lineHeightPx.getD 0) ++ "px;"] else [])
  ++ (if truthyNum style.letterSpacing then
        ["letter-spacing: " ++ jsNumToString (style.letterSpacing.getD 0) ++ "px;"] else [])
  ++ (match style.textAlignHorizontal with
      | some h => ["text-align: " ++
          (match h with
           | TextAlignH.LEFT => "left"
           | TextAlignH.RIGHT => "right"
           | TextAlignH.CENTER => "center"
           | TextAlignH.JUSTIFIED => "justify") ++ ";"]
      | none => [])

/-- The containment check of `generateStyles` (lines 147–151): some child is
forced-absolute or lacks an auto layout mode of its own. -/
def hasAbsoluteChildren (node : FigmaNode) : Bool :=
  !node.children.isNil &&
    node.children.toList.any (fun child =>
      (child.layoutPositioning == some "ABSOLUTE") || !(isAutoLayout child.layoutMode))

/-- The `left`/`top` offset pair, emitted when both bounding boxes exist. -/
def offsetStyles (node parentNode : FigmaNode) : List String :=
  match node.absoluteBoundingBox, parentNode.absoluteBoundingBox with
  | some a, some b =>
      ["left: " ++ jsNumToString (a.x - b.x) ++ "px;",
       "top: " ++ jsNumToString (a.y - b.y) ++ "px;"]
  | _, _ => []

/-- Width/height from the bounding box. -/
def dimensionStyles (node : FigmaNode) : List String :=
  match node.absoluteBoundingBox with
  | some bb =>
      ["width: " ++ jsNumToString bb.width ++ "px;",
       "height: " ++ jsNumToString bb.height ++ "px;"]
  | none => []

/-- The positioning strategy of `generateStyles` (lines 153–198). -/
def positionStyles (node parentNode : FigmaNode) (isRoot : Bool) : List String :=
  if isRoot then
    ["position: relative;", "overflow: hidden;", "background-color: white;"]
  else if node.layoutPositioning == some "ABSOLUTE" then
    "position: absolute;" :: offsetStyles node parentNode
  else if isAutoLayout parentNode.layoutMode then
    (if hasAbsoluteChildren node then ["position: relative;"] else ["position: static;"])
  else if hasAbsoluteChildren node then
    "position: absolute;" :: offsetStyles node parentNode
  else
    "position: absolute;" :: offsetStyles node parentNode

/-- The auto-layout flex block of `generateStyles` (lines 201–215). -/
def flexStyles (node : FigmaNode) : List String :=
  if isAutoLayout node.layoutMode then
    ["display: flex;",
     "flex-direction: " ++
       (if node.layoutMode == some LayoutMode.HORIZONTAL then ("row") else ("column")) ++ ";",
     "gap: " ++ jsNumToString (node.itemSpacing.getD 0) ++ "px;",
     "padding: " ++ jsNumToString (node.paddingTop.getD 0) ++ "px "
       ++ jsNumToString (node.paddingRight.getD 0) ++ "px "
       ++ jsNumToString (node.paddingBottom.getD 0) ++ "px "
       ++ jsNumToString (node.paddingLeft.getD 0) ++ "px;",
     "align-items: " ++ (mapFigmaAlignToCSS node.counterAxisAlignItems).getD ("flex-start") ++ ";",
     "justify-content: " ++ (mapFigmaAlignToCSS node.primaryAxisAlignItems).getD ("flex-start") ++ ";"]
  else []

/-- Cross-axis value inferred from a text child's vertical alignment
(lines 229–238): center when unspecified. -/
def textVAlignCss (v : Option TextAlignV) : String :=
  match v with
  | some TextAlignV.CENTER => "center"
  | some TextAlignV.BOTTOM => "flex-end"
  | some TextAlignV.TOP => "flex-start"
  | none => "center"

/-- Main-axis value inferred from a text child's horizontal alignment
(lines 241–250): center when unspecified or JUSTIFIED. -/
def textHAlignCss (h : Option TextAlignH) : String :=
  match h with
  | some TextAlignH.CENTER => "center"
  | some TextAlignH.RIGHT => "flex-end"
  | some TextAlignH.LEFT => "flex-start"
  | some TextAlignH.JUSTIFIED => "center"
  | none => "center"

/-- The text-container flex promotion of `generateStyles` (lines 220–253). -/
def textFlexStyles (node : FigmaNode) : List String :=
  if (!(node.type == NodeType.TEXT)) && (!node.children.isNil) && (!hasAbsoluteChildren node) then
    match node.children.toList.find? (fun child => child.type == NodeType.TEXT) with
    | some textChild =>
        (match textChild.style with
         | some style =>
             if !(isAutoLayout node.layoutMode) then
               (if style.textAlignHorizontal.isSome || style.textAlignVertical.isSome then
                  ["display: flex;",
                   "align-items: " ++ textVAlignCss style.textAlignVertical ++ ";",
                   "justify-content: " ++ textHAlignCss style.textAlignHorizontal ++ ";"]
                else [])
             else []
         | none => [])
    | none => []
  else []

/-- Backgrounds & fills (lines 257–262): an `if`/`else if` pair, both
guarded by the node not being a text node. -/
noncomputable def backgroundStyles (numFmt : ℝ → String) (node : FigmaNode) : List String :=
  match node.fills with
  | some fills =>
      if !(node.type == NodeType.TEXT) then
        (if parseFills numFmt fills = "" then []
         else ["background: " ++ parseFills numFmt fills ++ ";"])
      else []
  | none =>
      match node.backgroundColor with
      | some bgc =>
          if !(node.type == NodeType.TEXT) then
            ["background-color: " ++ rgba (some bgc) none ++ ";"]
          else []
      | none => []

/-- Borders (lines 265–271). -/
def strokeStyles (node : FigmaNode) : List String :=
  match node.strokes with
  | some strokes =>
      if (strokes.length > 0) && truthyNum node.strokeWeight then
        match strokes.find? paintVisible with
        | some strokePaint =>
            if strokePaint.type == PaintType.SOLID then
              ["border: " ++ jsNumToString (node.strokeWeight.getD 0) ++ "px solid "
                ++ rgba strokePaint.color strokePaint.opacity ++ ";"]
            else []
        | none => []
      else []
  | none => []

/-- Border radius (lines 274–278): the truthy uniform radius wins, else the
per-corner array. -/
def radiusStyles (node : FigmaNode) : List String :=
  if truthyNum node.cornerRadius then
    ["border-radius: " ++ jsNumToString (node.cornerRadius.getD 0) ++ "px;"]
  else
    match node.rectangleCornerRadii with
    | some rs =>
        ["border-radius: " ++ String.intercalate (" ") (rs.map (fun r => jsNumToString r ++ "px")) ++ ";"]
    | none => []

/-- Effects (lines 281–284): `shadow` truthy means non-empty. -/
def effectStyles (node : FigmaNode) : List String :=
  match node.effects with
  | some effects =>
      if parseEffects effects = "" then []
      else ["box-shadow: " ++ parseEffects effects ++ ";"]
  | none => []

/-- Typography and text color (lines 287–296): for a text node with a
style, typography plus the color of the first visible fill when that fill
is Solid. -/
def typographyStyles (node : FigmaNode) : List String :=
  if node.type == NodeType.TEXT then
    match node.style with
    | some style =>
        parseTypography style ++
          (match node.fills with
           | some fills =>
               (match fills.find? paintVisible with
                | some validFill =>
                    if validFill.type == PaintType.SOLID then
                      ["color: " ++ rgba validFill.color validFill.opacity ++ ";"]
                    else []
                | none => [])
           | none => [])
    | none => []
  else []

/-- `generateStyles`, as the ordered list of pushed declarations. -/
noncomputable def generateStylesList (numFmt : ℝ → String) (node parentNode : FigmaNode) (isRoot : Bool) : List String :=
  dimensionStyles node
  ++ positionStyles node parentNode isRoot
  ++ flexStyles node
  ++ textFlexStyles node
  ++ backgroundStyles numFmt node
  ++ strokeStyles node
  ++ radiusStyles node
  ++ effectStyles node
  ++ typographyStyles node

/-- `generateStyles`: the pushed declarations joined by single spaces. -/
noncomputable def generateStyles (numFmt : ℝ → String) (node parentNode : FigmaNode) (isRoot : Bool) : String :=
  String.intercalate (" ") (generateStylesList numFmt node parentNode isRoot)

/-- The per-call accumulator (`{ cssRules, idCounter }` in `convert`). -/
structure EmissionContext where
  cssRules : List String
  idCounter : Nat
  deriving DecidableEq

mutual
/-- `processNode`: skip invisible nodes; otherwise push this node's rule
and wrap escaped text or recursively emitted children. -/
noncomputable def processNode (numFmt : ℝ → String) : FigmaNode → FigmaNode → EmissionContext → Bool → String × EmissionContext
  | node@(.mk _ children), parentNode, context, isRoot =>
      if node.visible == some false then ("", context)
      else
        let className := "node-" ++ sanitizeId node.id
        let styles := generateStyles numFmt node parentNode isRoot
        let context1 : EmissionContext :=
          { context with cssRules := context.cssRules ++ ["." ++ className ++ " \x7b " ++ styles ++ " \x7d"] }
        let pair :=
          if (node.type == NodeType.TEXT) && truthyStr node.characters then
            (escapeCharacters (node.characters.getD ("")), context1)
          else
            processChildren numFmt children node context1
        ("<div class=\"" ++ className ++ "\">" ++ pair.1 ++ "</div>", pair.2)
/-- The children loop of `processNode`: left-to-right, threading the
accumulator, concatenating the fragments. -/
noncomputable def processChildren (numFmt : ℝ → String) : FigmaNodeList → FigmaNode → EmissionContext → String × EmissionContext
  | .nil, _, context => ("", context)
  | .cons child rest, parentNode, context =>
      let p := processNode numFmt child parentNode context false
      let q := processChildren numFmt rest parentNode p.2
      (p.1 ++ q.1, q.2)
end

mutual
/-- `findAllArtboards`: at a canvas, its frame/section/component children;
at the document, the concatenation over the canvases; otherwise recurse.
(Pushing only non-empty recursive results equals plain concatenation, and
an absent child array behaves as an empty one throughout.) -/
def findAllArtboards : FigmaNode → List FigmaNode
  | node@(.mk _ children) =>
      if node.type == NodeType.CANVAS then
        children.toList.filter (fun child =>
          (child.type == NodeType.FRAME) || (child.type == NodeType.SECTION)
            || (child.type == NodeType.COMPONENT))
      else if node.type == NodeType.DOCUMENT then
        findAllArtboardsList children
      else
        findAllArtboardsList children
/-- Loop body of the document/default branches of `findAllArtboards`. -/
def findAllArtboardsList : FigmaNodeList → List FigmaNode
  | .nil => []
  | .cons h t => findAllArtboards h ++ findAllArtboardsList t
end

/-- The per-artboard loop of `convert`: each artboard is processed as its
own parent with `isRoot = true`, threading one shared accumulator. -/
noncomputable def processArtboards (numFmt : ℝ → String) : List FigmaNode → EmissionContext → List String × EmissionContext
  | [], context => ([], context)
  | artboard :: rest, context =>
      let p := processNode numFmt artboard artboard context true
      let q := processArtboards numFmt rest p.2
      (p.1 :: q.1, q.2)

/-- The fixed stylesheet preamble of `convert` (template literal,
lines 33–53), including the unconditional `.artboards-container` rule. -/
def baseCss : String :=
  "\n        body \x7b\n          font-family: sans-serif;\n          margin: 0;\n          padding: 0;\n          display: flex;\n          justify-content: center;\n          align-items: center;\n          min-height: 100vh;\n          background-color: #f5f5f5;\n        \x7d\n        * \x7b box-sizing: border-box; \x7d\n\n        .artboards-container \x7b\n          display: flex;\n          flex-direction: column;\n          gap: 32px;\n          padding: 32px;\n          align-items: center;\n        \x7d\n      "

/-- The `{ html, css }` result of `convert`. -/
structure ConvertOutput where
  html : String
  css : String
  deriving DecidableEq

/-- `convert`: locate artboards (falling back to the root), emit each as a
root container, wrap when more than one, and prepend the fixed preamble to
the accumulated rules. -/
noncomputable def convert (numFmt : ℝ → String) (rootNode : FigmaNode) : ConvertOutput :=
  let artboards := findAllArtboards rootNode
  let nodesToProcess := if artboards.length > 0 then artboards else [rootNode]
  let context : EmissionContext := ⟨[], 0⟩
  let pr := processArtboards numFmt nodesToProcess context
  let artboardsHtml := String.join pr.1
  let html :=
    if nodesToProcess.length > 1 then
      "<div class=\"artboards-container\">" ++ artboardsHtml ++ "</div>"
    else artboardsHtml
  ⟨html, baseCss ++ "\n" ++ String.intercalate ("\n") pr.2.cssRules⟩

end FigmaConverterService

namespace FigmaConverterService

open Figma

/-- Prefix test over character lists. -/
def listPrefix : List Char → List Char → Bool
  | [], _ => true
  | _ :: _, [] => false
  | a :: as, b :: bs => (a == b) && listPrefix as bs

/-- Substring test over character lists (used to observe the stylesheet). -/
def listInfix (pat : List Char) : List Char → Bool
  | [] => pat.isEmpty
  | c :: rest => listPrefix pat (c :: rest) || listInfix pat rest

/-- `pat` occurs somewhere in `s`. -/
def containsStr (s pat : String) : Bool := listInfix pat.data s.data

/-- `pre` is a prefix of `s`. -/
def strStartsWith (s pre : String) : Bool := listPrefix pre.data s.data

theorem strData_append (a b : String) : (a ++ b).data = a.data ++ b.data := by
  cases a
  cases b
  rfl

theorem listPrefix_append_left : ∀ (p l t : List Char), listPrefix p l = true → listPrefix p (l ++ t) = true := by
  intro p
  induction p with
  | nil => intro l t _; rfl
  | cons x xs ih =>
      intro l t h
      cases l with
      | nil => simp [listPrefix] at h
      | cons y ys =>
          simp only [listPrefix, Bool.and_eq_true] at h
          simp only [List.cons_append, listPrefix, Bool.and_eq_true]
          exact ⟨h.1, ih ys t h.2⟩

theorem listInfix_nil_pat : ∀ s : List Char, listInfix [] s = true := by
  intro s
  induction s with
  | nil => rfl
  | cons c rest ih => simp [listInfix, listPrefix]

theorem listInfix_append_left : ∀ (pat a b : List Char), listInfix pat a = true → listInfix pat (a ++ b) = true := by
  intro pat a
  induction a with
  | nil =>
      intro b h
      cases pat with
      | nil => exact listInfix_nil_pat b
      | cons x xs => simp [listInfix, List.isEmpty] at h
  | cons c rest ih =>
      intro b h
      simp only [listInfix, Bool.or_eq_true] at h
      rcases h with h | h
      · simp only [List.cons_append, listInfix, Bool.or_eq_true]
        exact Or.inl (listPrefix_append_left _ _ _ h)
      · simp only [List.cons_append, listInfix, Bool.or_eq_true]
        exact Or.inr (ih b h)

theorem containsStr_append_left (a b pat : String) (h : containsStr a pat = true) : containsStr (a ++ b) pat = true := by
  unfold containsStr at h ⊢
  rw [strData_append]
  exact listInfix_append_left _ _ _ h

/-- A fixed rendering choice for the abstract angle formatter, used for
concrete evaluations (no claim constrains the angle's text). -/
def numFmt0 : ℝ → String := fun _ => ""

/-- A node-property record with the given id and type and every optional
field absent (shared base for the concrete test inputs). -/
def sampleProps (i : String) (t : NodeType) : NodeProps :=
  ⟨i, "", t, none, none, none, none, none, none, none, none, none, none, none, none,
   none, none, none, none, none, none, none, none, none⟩

end FigmaConverterService

namespace FigmaConverterService

open Figma

/-- Invisible frame used to exercise the visibility skip. -/
def invisibleNode : FigmaNode :=
  .mk { sampleProps ("inv 1") NodeType.FRAME with visible := some false } .nil

/-- Text node holding `Ben & Jerry`. -/
def escNode : FigmaNode :=
  .mk { sampleProps ("t9") NodeType.TEXT with characters := some ("Ben & Jerry") } .nil

/-- A frame child that itself has auto layout (so the containment flag
ignores it) under a parent without auto layout. -/
def c1Child : FigmaNode :=
  .mk { sampleProps ("c1c") NodeType.FRAME with layoutMode := some LayoutMode.HORIZONTAL } .nil

/-- A frame without auto layout whose only child is `c1Child`. -/
def c1Node : FigmaNode :=
  .mk (sampleProps ("c1n") NodeType.FRAME) (.cons c1Child .nil)

/-- An auto-layout parent holding `c1Node`. -/
def c1Parent : FigmaNode :=
  .mk { sampleProps ("c1p") NodeType.FRAME with layoutMode := some LayoutMode.HORIZONTAL }
    (.cons c1Node .nil)

/-- Document with exactly one artboard. -/
def singleArtboardDoc : FigmaNode :=
  .mk (sampleProps ("d1") NodeType.DOCUMENT)
    (.cons (.mk (sampleProps ("cv1") NodeType.CANVAS)
      (.cons (.mk (sampleProps ("f1") NodeType.FRAME) .nil) .nil)) .nil)

/-- Document with three artboards on one canvas. -/
def tripleArtboardDoc : FigmaNode :=
  .mk (sampleProps ("d3") NodeType.DOCUMENT)
    (.cons (.mk (sampleProps ("cv3") NodeType.CANVAS)
      (.cons (.mk (sampleProps ("f1") NodeType.FRAME) .nil)
        (.cons (.mk (sampleProps ("f2") NodeType.FRAME) .nil)
          (.cons (.mk (sampleProps ("f3") NodeType.FRAME) .nil) .nil)))) .nil)

/-- Claim C7: a node with `visible == false` contributes nothing: its
fragment is empty, the accumulator is returned untouched (so no style rule
keyed by its identifier is appended), and its descendants are never
visited. -/
theorem processNode_invisible_skipped (numFmt : ℝ → String) (node parentNode : FigmaNode)
    (context : EmissionContext) (isRoot : Bool) (h : node.visible = some false) :
    processNode numFmt node parentNode context isRoot = ("", context) := by
  cases node with
  | mk props children =>
      have hv : props.visible = some false := h
      simp [processNode, FigmaNode.visible, FigmaNode.props, hv]

/-- Witness for C7 at a concrete invisible node and non-trivial context. -/
theorem processNode_invisible_skipped_witness :
    invisibleNode.visible = some false ∧
      processNode numFmt0 invisibleNode invisibleNode ⟨["existing"], 3⟩ true = ("", ⟨["existing"], 3⟩) :=
  ⟨by decide, processNode_invisible_skipped numFmt0 invisibleNode invisibleNode ⟨["existing"], 3⟩ true (by decide)⟩

theorem isIdentChar_sanitizeChar (c : Char) : isIdentChar (sanitizeChar c) = true := by
  by_cases h : isIdentChar c = true
  · simp [sanitizeChar, h]
  · have h1 : sanitizeChar c = '-' := by simp [sanitizeChar, h]
    rw [h1]
    decide

theorem sanitizeChar_idem (c : Char) : sanitizeChar (sanitizeChar c) = sanitizeChar c := by
  by_cases hc : isIdentChar c = true
  · simp [sanitizeChar, hc]
  · have h1 : sanitizeChar c = '-' := by simp [sanitizeChar, hc]
    rw [h1]
    decide

theorem map_sanitizeChar_idem : ∀ l : List Char, (l.map sanitizeChar).map sanitizeChar = l.map sanitizeChar := by
  intro l
  induction l with
  | nil => rfl
  | cons c rest ih =>
      simp only [List.map_cons, sanitizeChar_idem, ih]

/-- Claim C8: the identifier sanitizer is deterministic (it is a pure
function of its argument), idempotent, and produces only characters in
`[A-Za-z0-9_-]`. -/
theorem sanitizeId_idempotent_and_safe (x : String) :
    sanitizeId (sanitizeId x) = sanitizeId x ∧ ∀ c ∈ (sanitizeId x).data, isIdentChar c = true := by
  constructor
  · unfold sanitizeId
    exact congrArg String.mk (map_sanitizeChar_idem x.data)
  · intro c hc
    unfold sanitizeId at hc
    simp only [String.mk] at hc
    rcases List.mem_map.mp hc with ⟨a, _, rfl⟩
    exact isIdentChar_sanitizeChar a

/-- Claim C9: the escaping order `&`, `<`, `>`, newline never double-encodes
an entity: `Ben & Jerry` gives `Ben &amp; Jerry`, `<script>` gives
`&lt;script&gt;`, newlines become `<br/>`; and a text node's fragment
carries exactly the escaped text. -/
theorem escapeCharacters_order_examples :
    escapeCharacters ("Ben & Jerry") = "Ben &amp; Jerry"
    ∧ escapeCharacters ("<script>") = "&lt;script&gt;"
    ∧ escapeCharacters ("line1\nline2") = "line1<br/>line2"
    ∧ (processNode numFmt0 escNode escNode ⟨[], 0⟩ false).1
        = "<div class=\"node-t9\">Ben &amp; Jerry</div>" := by
  refine ⟨by decide, by decide, by decide, by decide⟩

/-- Claim C1 (failing input): under an auto-layout parent, the code keys the
static/relative decision on each child's own `layoutMode`, not on whether
the child will actually be positioned absolutely.  Here `c1Node` (no auto
layout) receives `position: static;` although its only child `c1Child`
receives `position: absolute;` (it needs `c1Node` as containing block), and
the containment flag is false because the child itself has auto layout. -/
theorem positioning_containment_divergence :
    hasAbsoluteChildren c1Node = false
    ∧ ("position: static;" ∈ generateStylesList numFmt0 c1Node c1Parent false)
    ∧ ("position: absolute;" ∈ generateStylesList numFmt0 c1Child c1Node false) := by
  refine ⟨by decide, by decide, by decide⟩

/-- Claim C3 (counterexample): with exactly one located artboard the
stylesheet still contains the `.artboards-container` rule — it is part of
the unconditional preamble, refuting the claimed "if and only if more than
one artboard". -/
theorem stylesheet_container_rule_single_artboard :
    (findAllArtboards singleArtboardDoc).length = 1
    ∧ containsStr (convert numFmt0 singleArtboardDoc).css (".artboards-container") = true := by
  refine ⟨by decide, by decide⟩

/-- Claim C3 (amended): the stylesheet is the fixed preamble — which always
contains the `.artboards-container` rule, whatever the artboard count —
followed by the per-node rules in emission order. -/
theorem stylesheet_preamble_and_rules (numFmt : ℝ → String) (rootNode : FigmaNode) :
    (convert numFmt rootNode).css
      = baseCss ++ "\n" ++ String.intercalate ("\n")
          (processArtboards numFmt
            (if (findAllArtboards rootNode).length > 0 then findAllArtboards rootNode else [rootNode])
            ⟨[], 0⟩).2.cssRules
    ∧ containsStr (convert numFmt rootNode).css (".artboards-container") = true := by
  constructor
  · rfl
  · show containsStr ((baseCss ++ "\n") ++ String.intercalate ("\n") _) _ = true
    apply containsStr_append_left
    apply containsStr_append_left
    decide

end FigmaConverterService

namespace FigmaConverterService

open Figma

theorem str_empty_append (s : String) : "" ++ s = s := by
  cases s
  rfl

theorem processArtboards_length (numFmt : ℝ → String) :
    ∀ (l : List FigmaNode) (context : EmissionContext),
      (processArtboards numFmt l context).1.length = l.length := by
  intro l
  induction l with
  | nil => intro context; rfl
  | cons a rest ih =>
      intro context
      simp only [processArtboards, List.length_cons]
      rw [ih]

/-- Claim C4: one fragment per located artboard, each emitted as its own
root container (`isRoot = true`); with more than one artboard the fragments
are concatenated inside a single `artboards-container` wrapper, with
exactly one artboard the lone fragment is returned unwrapped. -/
theorem convert_artboard_wrapping (numFmt : ℝ → String) (rootNode : FigmaNode) :
    ((processArtboards numFmt (findAllArtboards rootNode) ⟨[], 0⟩).1.length
        = (findAllArtboards rootNode).length)
    ∧ (1 < (findAllArtboards rootNode).length →
        (convert numFmt rootNode).html
          = "<div class=\"artboards-container\">"
              ++ String.join (processArtboards numFmt (findAllArtboards rootNode) ⟨[], 0⟩).1 ++ "</div>")
    ∧ (∀ a, findAllArtboards rootNode = [a] →
        (convert numFmt rootNode).html = (processNode numFmt a a ⟨[], 0⟩ true).1)
    ∧ (∀ (a : FigmaNode) (rest : List FigmaNode) (context : EmissionContext),
        (processArtboards numFmt (a :: rest) context).1
          = (processNode numFmt a a context true).1
              :: (processArtboards numFmt rest (processNode numFmt a a context true).2).1) := by
  refine ⟨processArtboards_length numFmt _ _, ?_, ?_, ?_⟩
  · intro h
    have h0 : (findAllArtboards rootNode).length > 0 := by omega
    simp only [convert, gt_iff_lt, h0, if_true]
    simp only [h, if_true]
  · intro a ha
    simp only [convert, ha, List.length_singleton, gt_iff_lt, zero_lt_one, if_true]
    have hlt : ¬ (1 < 1) := by omega
    simp only [hlt, if_false]
    simp only [processArtboards, String.join, List.foldl]
    exact str_empty_append _
  · intro a rest context
    simp only [processArtboards]

/-- Witness for C4: three artboards produce the wrapped concatenation. -/
theorem convert_artboard_wrapping_witness :
    1 < (findAllArtboards tripleArtboardDoc).length
    ∧ (convert numFmt0 tripleArtboardDoc).html
        = "<div class=\"artboards-container\">"
            ++ String.join (processArtboards numFmt0 (findAllArtboards tripleArtboardDoc) ⟨[], 0⟩).1 ++ "</div>" :=
  ⟨by decide, (convert_artboard_wrapping numFmt0 tripleArtboardDoc).2.1 (by decide)⟩

/-- Two-stop horizontal gradient used as the regression fixture. -/
def gradPaintFixture : Paint :=
  ⟨PaintType.GRADIENT_LINEAR, none, none, none,
   some [⟨0, 0⟩, ⟨1, 0⟩],
   some [⟨0, some ⟨1, 0, 0, none⟩⟩, ⟨1, some ⟨0, 0, 1, none⟩⟩], none⟩

/-- Claim C6: with at least two handle vectors, the emitted gradient is the
angle `atan2(dy, dx)` in degrees plus the fixed 90° offset — so the
horizontal handles `(0,0)→(1,0)` give exactly 90° — followed by the stops,
each rendered as its encoded color and its position rounded to the nearest
integer percent. -/
theorem parseGradient_angle_and_stops (numFmt : ℝ → String) (paint : Paint)
    (start e : Vector) (rest : List Vector) (stops : List ColorStop)
    (hh : paint.gradientHandlePositions = some (start :: e :: rest))
    (hs : paint.gradientStops = some stops) :
    parseGradient numFmt paint
      = "linear-gradient(" ++ numFmt (gradientCssAngle start e) ++ "deg, "
          ++ String.intercalate (", ") (stops.map gradientStopCss) ++ ")"
    ∧ gradientCssAngle start e
        = jsAtan2 (e.y.toReal - start.y.toReal) (e.x.toReal - start.x.toReal) * 180 / Real.pi + 90
    ∧ gradientCssAngle ⟨0, 0⟩ ⟨1, 0⟩ = 90
    ∧ ∀ stop ∈ stops,
        gradientStopCss stop
          = rgba stop.color none ++ " " ++ (jsRound (stop.position * 100)).repr ++ "%" := by
  refine ⟨?_, rfl, ?_, fun stop _ => rfl⟩
  · simp only [parseGradient, hh, hs]
  · have hx : ((⟨1, 0⟩ : Vector).x.toReal - (⟨0, 0⟩ : Vector).x.toReal) = 1 := by
      show ((⟨Int.ofNat 1, 1⟩ : JsNum).toReal - (⟨Int.ofNat 0, 1⟩ : JsNum).toReal) = 1
      simp [JsNum.toReal]
    have hy : ((⟨1, 0⟩ : Vector).y.toReal - (⟨0, 0⟩ : Vector).y.toReal) = 0 := by
      show ((⟨Int.ofNat 0, 1⟩ : JsNum).toReal - (⟨Int.ofNat 0, 1⟩ : JsNum).toReal) = 0
      simp [JsNum.toReal]
    simp only [gradientCssAngle, hx, hy, jsAtan2]
    norm_num [Real.arctan_zero]

/-- Witness for C6 at the fixture gradient. -/
theorem parseGradient_angle_and_stops_witness :
    parseGradient numFmt0 gradPaintFixture
      = "linear-gradient(" ++ numFmt0 (gradientCssAngle ⟨0, 0⟩ ⟨1, 0⟩) ++ "deg, "
          ++ String.intercalate (", ")
              ([⟨0, some ⟨1, 0, 0, none⟩⟩, (⟨1, some ⟨0, 0, 1, none⟩⟩ : ColorStop)].map gradientStopCss) ++ ")"
    ∧ gradientCssAngle ⟨0, 0⟩ ⟨1, 0⟩ = 90 :=
  ⟨(parseGradient_angle_and_stops numFmt0 gradPaintFixture ⟨0, 0⟩ ⟨1, 0⟩ [] _ rfl rfl).1,
   (parseGradient_angle_and_stops numFmt0 gradPaintFixture ⟨0, 0⟩ ⟨1, 0⟩ [] _ rfl rfl).2.2.1⟩

end FigmaConverterService

namespace FigmaConverterService

open Figma

theorem find?_of_filter_singleton {α : Type} (p : α → Bool) :
    ∀ (l : List α) (a : α), l.filter p = [a] → l.find? p = some a := by
  intro l
  induction l with
  | nil => intro a h; simp at h
  | cons x xs ih =>
      intro a h
      by_cases hp : p x
      · rw [List.filter_cons_of_pos hp] at h
        have hx : x = a := (List.cons.injEq _ _ _ _).mp h |>.1
        rw [List.find?_cons_of_pos _ hp, hx]
      · rw [List.filter_cons_of_neg hp] at h
        rw [List.find?_cons_of_neg _ hp]
        exact ih a h

/-- A text child (with auto layout of its own, so the containment flag stays
false) carrying horizontal CENTER alignment. -/
def alignedTextChild : FigmaNode :=
  .mk { sampleProps ("c2t") NodeType.TEXT with
          layoutMode := some LayoutMode.HORIZONTAL,
          style := some ⟨"Arial", 400, 16, some TextAlignH.CENTER, none, none, none⟩ } .nil

/-- A non-flex frame whose only child is the aligned text child. -/
def textWrapperNode : FigmaNode :=
  .mk (sampleProps ("c2n") NodeType.FRAME) (.cons alignedTextChild .nil)

/-- Claim C2: a non-text container that is not itself a flex container, has
a false containment flag, and exactly one text child whose style carries
explicit alignment, is promoted to a flex container whose cross axis
mirrors the child's vertical text alignment and whose main axis mirrors the
horizontal one, defaulting to center on an unspecified axis
(`textVAlignCss`/`textHAlignCss` are exactly that mirror table). -/
theorem textAlignment_promotion (numFmt : ℝ → String) (node parentNode : FigmaNode)
    (isRoot : Bool) (textChild : FigmaNode) (st : TypeStyle)
    (hNotText : node.type ≠ NodeType.TEXT)
    (hOnly : node.children.toList.filter (fun c => c.type == NodeType.TEXT) = [textChild])
    (hStyle : textChild.style = some st)
    (hAlign : st.textAlignHorizontal.isSome ∨ st.textAlignVertical.isSome)
    (hNoAbs : hasAbsoluteChildren node = false)
    (hNoFlex : isAutoLayout node.layoutMode = false) :
    ("display: flex;" ∈ generateStylesList numFmt node parentNode isRoot)
    ∧ ("align-items: " ++ textVAlignCss st.textAlignVertical ++ ";"
        ∈ generateStylesList numFmt node parentNode isRoot)
    ∧ ("justify-content: " ++ textHAlignCss st.textAlignHorizontal ++ ";"
        ∈ generateStylesList numFmt node parentNode isRoot) := by
  have hfind : node.children.toList.find? (fun c => c.type == NodeType.TEXT) = some textChild :=
    find?_of_filter_singleton _ _ _ hOnly
  have hne : node.children.isNil = false := by
    cases hcl : node.children with
    | nil =>
        rw [hcl] at hOnly
        simp [FigmaNodeList.toList] at hOnly
    | cons _ _ => simp [FigmaNodeList.isNil]
  have hT : (node.type == NodeType.TEXT) = false := by
    simp [hNotText]
  have hSome : (st.textAlignHorizontal.isSome || st.textAlignVertical.isSome) = true := by
    rcases hAlign with h | h <;> simp [h]
  have hflex : textFlexStyles node
      = ["display: flex;",
         "align-items: " ++ textVAlignCss st.textAlignVertical ++ ";",
         "justify-content: " ++ textHAlignCss st.textAlignHorizontal ++ ";"] := by
    unfold textFlexStyles
    rw [hT, hne, hNoAbs]
    simp only [Bool.not_false, Bool.and_self, if_true]
    rw [hfind]
    simp only [hStyle]
    rw [hNoFlex]
    simp only [Bool.not_false, if_true, hSome]
  have hmem : ∀ s ∈ textFlexStyles node, s ∈ generateStylesList numFmt node parentNode isRoot := by
    intro s hs
    unfold generateStylesList
    simp only [List.mem_append]
    tauto
  refine ⟨hmem _ ?_, hmem _ ?_, hmem _ ?_⟩ <;> rw [hflex] <;> simp

/-- Witness for C2 at the concrete wrapper node (horizontal CENTER given,
vertical unspecified, so both axes center). -/
theorem textAlignment_promotion_witness :
    ("display: flex;" ∈ generateStylesList numFmt0 textWrapperNode textWrapperNode false)
    ∧ ("align-items: center;" ∈ generateStylesList numFmt0 textWrapperNode textWrapperNode false)
    ∧ ("justify-content: center;" ∈ generateStylesList numFmt0 textWrapperNode textWrapperNode false) :=
  textAlignment_promotion numFmt0 textWrapperNode textWrapperNode false alignedTextChild
    ⟨"Arial", 400, 16, some TextAlignH.CENTER, none, none, none⟩
    (by decide) rfl rfl (Or.inl (by decide)) (by decide) (by decide)

end FigmaConverterService

namespace FigmaConverterService

open Figma

theorem strAppend_assoc (a b c : String) : (a ++ b) ++ c = a ++ (b ++ c) := by
  cases a with
  | mk l =>
      cases b with
      | mk m =>
          cases c with
          | mk k =>
              show String.mk ((l ++ m) ++ k) = String.mk (l ++ (m ++ k))
              exact congrArg String.mk (List.append_assoc l m k)

theorem listPrefix_append_false : ∀ (p a t : List Char),
    listPrefix p a = false → listPrefix a p = false → listPrefix p (a ++ t) = false := by
  intro p
  induction p with
  | nil => intro a t h1 _; simp [listPrefix] at h1
  | cons x xs ih =>
      intro a t h1 h2
      cases a with
      | nil => simp [listPrefix] at h2
      | cons y ys =>
          by_cases hxy : (x == y) = true
          · have hyx : (y == x) = true := by
              have := beq_iff_eq.mp hxy
              simp [this]
            simp only [listPrefix, hxy, Bool.true_and] at h1
            simp only [listPrefix, hyx, Bool.true_and] at h2
            simp only [List.cons_append, listPrefix, hxy, Bool.true_and]
            exact ih ys t h1 h2
          · have hxy' : (x == y) = false := by
              cases h : (x == y)
              · rfl
              · exact absurd h hxy
            simp only [List.cons_append, listPrefix, hxy', Bool.false_and]

theorem strStartsWith_append_false (lit x pre : String)
    (h1 : listPrefix pre.data lit.data = false)
    (h2 : listPrefix lit.data pre.data = false) :
    strStartsWith (lit ++ x) pre = false := by
  unfold strStartsWith
  rw [strData_append]
  exact listPrefix_append_false _ _ _ h1 h2

theorem noBg_offset (node parentNode : FigmaNode) :
    ∀ s ∈ offsetStyles node parentNode, strStartsWith s ("background") = false := by
  intro s hs
  unfold offsetStyles at hs
  cases h1 : node.absoluteBoundingBox with
  | none => rw [h1] at hs; simp at hs
  | some a =>
      cases h2 : parentNode.absoluteBoundingBox with
      | none => rw [h1, h2] at hs; simp at hs
      | some b =>
          rw [h1, h2] at hs
          simp only [List.mem_cons, List.not_mem_nil, or_false] at hs
          rcases hs with rfl | rfl <;>
            (simp only [strAppend_assoc]
             exact strStartsWith_append_false _ _ _ (by decide) (by decide))

theorem noBg_dimension (node : FigmaNode) :
    ∀ s ∈ dimensionStyles node, strStartsWith s ("background") = false := by
  intro s hs
  unfold dimensionStyles at hs
  cases h1 : node.absoluteBoundingBox with
  | none => rw [h1] at hs; simp at hs
  | some bb =>
      rw [h1] at hs
      simp only [List.mem_cons, List.not_mem_nil, or_false] at hs
      rcases hs with rfl | rfl <;>
        (simp only [strAppend_assoc]
         exact strStartsWith_append_false _ _ _ (by decide) (by decide))

theorem noBg_position (node parentNode : FigmaNode) :
    ∀ s ∈ positionStyles node parentNode false, strStartsWith s ("background") = false := by
  intro s hs
  unfold positionStyles at hs
  simp only [Bool.false_eq_true, if_false] at hs
  split at hs
  · rcases List.mem_cons.mp hs with rfl | h
    · decide
    · exact noBg_offset node parentNode s h
  · split at hs
    · split at hs <;>
        (simp only [List.mem_cons, List.not_mem_nil, or_false] at hs
         subst hs
         decide)
    · rw [ite_self] at hs
      rcases List.mem_cons.mp hs with rfl | h
      · decide
      · exact noBg_offset node parentNode s h

theorem noBg_flex (node : FigmaNode) :
    ∀ s ∈ flexStyles node, strStartsWith s ("background") = false := by
  intro s hs
  unfold flexStyles at hs
  split at hs
  · simp only [List.mem_cons, List.not_mem_nil, or_false] at hs
    rcases hs with rfl | rfl | rfl | rfl | rfl | rfl <;>
      first
        | decide
        | (simp only [strAppend_assoc]
           exact strStartsWith_append_false _ _ _ (by decide) (by decide))
  · simp at hs

theorem textFlexStyles_text (node : FigmaNode) (h : node.type = NodeType.TEXT) :
    textFlexStyles node = [] := by
  unfold textFlexStyles
  simp [h]

theorem backgroundStyles_text (numFmt : ℝ → String) (node : FigmaNode)
    (h : node.type = NodeType.TEXT) :
    backgroundStyles numFmt node = [] := by
  unfold backgroundStyles
  cases h1 : node.fills with
  | some fills => simp [h]
  | none =>
      cases h2 : node.backgroundColor with
      | some bgc => simp [h]
      | none => rfl

theorem noBg_stroke (node : FigmaNode) :
    ∀ s ∈ strokeStyles node, strStartsWith s ("background") = false := by
  intro s hs
  unfold strokeStyles at hs
  split at hs
  · split at hs
    · split at hs
      · split at hs
        · simp only [List.mem_cons, List.not_mem_nil, or_false] at hs
          subst hs
          simp only [strAppend_assoc]
          exact strStartsWith_append_false _ _ _ (by decide) (by decide)
        · simp at hs
      · simp at hs
    · simp at hs
  · simp at hs

theorem noBg_radius (node : FigmaNode) :
    ∀ s ∈ radiusStyles node, strStartsWith s ("background") = false := by
  intro s hs
  unfold radiusStyles at hs
  split at hs
  · simp only [List.mem_cons, List.not_mem_nil, or_false] at hs
    subst hs
    simp only [strAppend_assoc]
    exact strStartsWith_append_false _ _ _ (by decide) (by decide)
  · split at hs
    · simp only [List.mem_cons, List.not_mem_nil, or_false] at hs
      subst hs
      simp only [strAppend_assoc]
      exact strStartsWith_append_false _ _ _ (by decide) (by decide)
    · simp at hs

theorem noBg_effect (node : FigmaNode) :
    ∀ s ∈ effectStyles node, strStartsWith s ("background") = false := by
  intro s hs
  unfold effectStyles at hs
  split at hs
  · split at hs
    · simp at hs
    · simp only [List.mem_cons, List.not_mem_nil, or_false] at hs
      subst hs
      simp only [strAppend_assoc]
      exact strStartsWith_append_false _ _ _ (by decide) (by decide)
  · simp at hs

theorem noBg_parseTypography (st : TypeStyle) :
    ∀ s ∈ parseTypography st, strStartsWith s ("background") = false := by
  intro s hs
  unfold parseTypography at hs
  simp only [List.append_assoc, List.mem_append, List.mem_cons, List.not_mem_nil, or_false] at hs
  rcases hs with (rfl | rfl | rfl) | hs | hs | hs
  · simp only [strAppend_assoc]
    exact strStartsWith_append_false _ _ _ (by decide) (by decide)
  · simp only [strAppend_assoc]
    exact strStartsWith_append_false _ _ _ (by decide) (by decide)
  · simp only [strAppend_assoc]
    exact strStartsWith_append_false _ _ _ (by decide) (by decide)
  · split at hs
    · simp only [List.mem_cons, List.not_mem_nil, or_false] at hs
      subst hs
      simp only [strAppend_assoc]
      exact strStartsWith_append_false _ _ _ (by decide) (by decide)
    · simp at hs
  · split at hs
    · simp only [List.mem_cons, List.not_mem_nil, or_false] at hs
      subst hs
      simp only [strAppend_assoc]
      exact strStartsWith_append_false _ _ _ (by decide) (by decide)
    · simp at hs
  · split at hs
    · simp only [List.mem_cons, List.not_mem_nil, or_false] at hs
      subst hs
      simp only [strAppend_assoc]
      exact strStartsWith_append_false _ _ _ (by decide) (by decide)
    · simp at hs

theorem noBg_typography (node : FigmaNode) :
    ∀ s ∈ typographyStyles node, strStartsWith s ("background") = false := by
  intro s hs
  unfold typographyStyles at hs
  split at hs
  · split at hs
    · rcases List.mem_append.mp hs with h | h
      · exact noBg_parseTypography _ s h
      · split at h
        · split at h
          · split at h
            · simp only [List.mem_cons, List.not_mem_nil, or_false] at h
              subst h
              simp only [strAppend_assoc]
              exact strStartsWith_append_false _ _ _ (by decide) (by decide)
            · simp at h
          · simp at h
        · simp at h
    · simp at hs
  · simp at hs

end FigmaConverterService

namespace FigmaConverterService

open Figma

/-- A visible solid red fill. -/
def solidRed : Paint := ⟨PaintType.SOLID, some ⟨1, 0, 0, none⟩, none, none, none, none, none⟩

/-- A visible linear-gradient fill with no data. -/
def gradientFill : Paint := ⟨PaintType.GRADIENT_LINEAR, none, none, none, none, none, none⟩

/-- A minimal text style. -/
def basicStyle : TypeStyle := ⟨"Arial", 400, 16, none, none, none, none⟩

/-- Text node whose first visible fill is a gradient and whose second
visible fill is solid red. -/
def gradientFirstTextNode : FigmaNode :=
  .mk { sampleProps ("c5t") NodeType.TEXT with
          style := some basicStyle, fills := some [gradientFill, solidRed] } .nil

/-- A text node serving as the document root (no artboard anywhere). -/
def rootTextNode : FigmaNode :=
  .mk { sampleProps ("c5r") NodeType.TEXT with
          style := some basicStyle, fills := some [solidRed],
          characters := some ("hi") } .nil

/-- Claim C5 (counterexample): the code reads the first *visible* fill and
only then checks it for Solid — it does not search for the first
visible-and-Solid fill.  With fills `[gradient, solid red]` the claimed
declaration `color: rgba(255, 0, 0, 1);` is not emitted (no color is).
Moreover a text node that becomes the root container does receive a
`background-color: white;` declaration, against "no background ever". -/
theorem text_color_counterexample :
    ((gradientFirstTextNode.fills.getD []).filter
        (fun f => paintVisible f && (f.type == PaintType.SOLID)) = [solidRed])
    ∧ ("color: " ++ rgba solidRed.color solidRed.opacity ++ ";"
        ∉ generateStylesList numFmt0 gradientFirstTextNode gradientFirstTextNode false)
    ∧ (∀ s ∈ generateStylesList numFmt0 gradientFirstTextNode gradientFirstTextNode false,
        strStartsWith s ("color:") = false)
    ∧ (findAllArtboards rootTextNode).length = 0
    ∧ rootTextNode.type = NodeType.TEXT
    ∧ containsStr (convert numFmt0 rootTextNode).css ("background-color: white;") = true := by
  refine ⟨by decide, by decide, by decide, by decide, by decide, by decide⟩

/-- Claim C5 (amended): for a text node with a style and fills, when the
first visible fill (in array order) is Solid, the emitted color is that
fill's encoded color; and a non-root text node never receives any
background declaration. -/
theorem text_color_first_visible_fill (numFmt : ℝ → String) (node parentNode : FigmaNode)
    (st : TypeStyle) (fills : List Paint) (f : Paint)
    (hText : node.type = NodeType.TEXT)
    (hStyle : node.style = some st)
    (hFills : node.fills = some fills)
    (hFind : fills.find? paintVisible = some f)
    (hSolid : f.type = PaintType.SOLID) :
    ("color: " ++ rgba f.color f.opacity ++ ";"
        ∈ generateStylesList numFmt node parentNode false)
    ∧ ∀ s ∈ generateStylesList numFmt node parentNode false,
        strStartsWith s ("background") = false := by
  have hT : (node.type == NodeType.TEXT) = true := by simp [hText]
  have hS : (f.type == PaintType.SOLID) = true := by simp [hSolid]
  have htypo : typographyStyles node
      = parseTypography st ++ ["color: " ++ rgba f.color f.opacity ++ ";"] := by
    unfold typographyStyles
    rw [hT]
    simp only [if_true, hStyle, hFills, hFind, hS]
  constructor
  · unfold generateStylesList
    refine List.mem_append.mpr (Or.inr ?_)
    rw [htypo]
    exact List.mem_append.mpr (Or.inr (by simp))
  · intro s hs
    unfold generateStylesList at hs
    simp only [List.mem_append] at hs
    rcases hs with ((((((((h | h) | h) | h) | h) | h) | h) | h) | h)
    · exact noBg_dimension node s h
    · exact noBg_position node parentNode s h
    · exact noBg_flex node s h
    · rw [textFlexStyles_text node hText] at h
      simp at h
    · rw [backgroundStyles_text numFmt node hText] at h
      simp at h
    · exact noBg_stroke node s h
    · exact noBg_radius node s h
    · exact noBg_effect node s h
    · exact noBg_typography node s h

/-- Witness for the amended C5 at a concrete text node with a solid first
fill. -/
theorem text_color_first_visible_fill_witness :
    ("color: " ++ rgba solidRed.color solidRed.opacity ++ ";"
        ∈ generateStylesList numFmt0 rootTextNode rootTextNode false)
    ∧ ∀ s ∈ generateStylesList numFmt0 rootTextNode rootTextNode false,
        strStartsWith s ("background") = false :=
  text_color_first_visible_fill numFmt0 rootTextNode rootTextNode basicStyle [solidRed] solidRed
    rfl rfl rfl rfl rfl

end FigmaConverterService

namespace FigmaConverterService

open Figma

mutual
theorem processNode_frame_aux (numFmt : ℝ → String) :
    ∀ (node : FigmaNode) (parentNode : FigmaNode) (context : EmissionContext) (isRoot : Bool),
      ∃ l, (processNode numFmt node parentNode context isRoot).2
            = ⟨context.cssRules ++ l, context.idCounter⟩
  | .mk props children, parentNode, context, isRoot => by
      cases context with
      | mk rules ctr =>
          by_cases hv : ((FigmaNode.mk props children).visible == some false) = true
          · refine ⟨[], ?_⟩
            simp [processNode, hv]
          · have hv' : ((FigmaNode.mk props children).visible == some false) = false := by
              cases h : ((FigmaNode.mk props children).visible == some false)
              · rfl
              · exact absurd h hv
            by_cases hc : (((FigmaNode.mk props children).type == NodeType.TEXT)
                && truthyStr (FigmaNode.mk props children).characters) = true
            · refine ⟨["." ++ ("node-" ++ sanitizeId (FigmaNode.mk props children).id)
                        ++ " \x7b " ++ generateStyles numFmt (FigmaNode.mk props children) parentNode isRoot ++ " \x7d"], ?_⟩
              simp only [processNode, hv', Bool.false_eq_true, if_false, hc, if_true]
            · obtain ⟨l2, h2⟩ := processChildren_frame_aux numFmt children (FigmaNode.mk props children)
                ⟨rules ++ ["." ++ ("node-" ++ sanitizeId (FigmaNode.mk props children).id)
                  ++ " \x7b " ++ generateStyles numFmt (FigmaNode.mk props children) parentNode isRoot ++ " \x7d"], ctr⟩
              refine ⟨["." ++ ("node-" ++ sanitizeId (FigmaNode.mk props children).id)
                  ++ " \x7b " ++ generateStyles numFmt (FigmaNode.mk props children) parentNode isRoot ++ " \x7d"] ++ l2, ?_⟩
              simp only [processNode, hv', Bool.false_eq_true, if_false, hc]
              rw [h2]
              simp [List.append_assoc]
theorem processChildren_frame_aux (numFmt : ℝ → String) :
    ∀ (children : FigmaNodeList) (parentNode : FigmaNode) (context : EmissionContext),
      ∃ l, (processChildren numFmt children parentNode context).2
            = ⟨context.cssRules ++ l, context.idCounter⟩
  | .nil, parentNode, context => by
      cases context with
      | mk rules ctr =>
          refine ⟨[], ?_⟩
          simp [processChildren]
  | .cons child rest, parentNode, context => by
      obtain ⟨l1, h1⟩ := processNode_frame_aux numFmt child parentNode context false
      obtain ⟨l2, h2⟩ :=
        processChildren_frame_aux numFmt rest parentNode
          (processNode numFmt child parentNode context false).2
      refine ⟨l1 ++ l2, ?_⟩
      show (processChildren numFmt (.cons child rest) parentNode context).2 = _
      simp only [processChildren]
      rw [h2, h1]
      simp [List.append_assoc]
end

/-- Claim C10: in this pure embedding the input tree is a value the
emitter cannot modify (the source likewise never writes to a node), and the
only state the recursion touches is the per-call accumulator: processing a
node only appends new rules to `cssRules` and leaves `idCounter` exactly as
it was. -/
theorem processNode_only_appends_rules (numFmt : ℝ → String) (node parentNode : FigmaNode)
    (context : EmissionContext) (isRoot : Bool) :
    ∃ newRules, (processNode numFmt node parentNode context isRoot).2
      = ⟨context.cssRules ++ newRules, context.idCounter⟩ :=
  processNode_frame_aux numFmt node parentNode context isRoot

end FigmaConverterService
